import Mathlib

/-!
Shallow embedding of the solc-go binding layer.

The repository wraps the Emscripten-compiled Solidity compiler behind a
JavaScript engine (v8go).  The effectful external world (the v8 context,
the JSON codec of the standard library, the file system) is modelled as a
record of functions; the repository's own code is translated line by line
into Lean functions over that record.

Go conventions used throughout the embedding:
* a Go function returning `(T, error)` becomes a Lean function returning
  `Option T × Option GoError` (the Go value is `nil` exactly when the
  `Option` is `none`);
* an external call whose error the Go code checks is modelled as
  `Except GoError V`; a call whose error the Go code discards
  (`v, _ := f()`) is modelled by `.toOption`;
* `sync.Mutex` state is a `Bool` (`true` = held); `Lock` on a held mutex
  blocks the (single) caller forever, `Unlock` of an un-held mutex is a
  fatal runtime error;
* a method call on a `nil` pointer and `panic` are both modelled by the
  `panicked` outcome, a blocked caller by `blocked`.
-/

/-- An opaque Go `error` value. -/
structure GoError where
  msg : String
deriving DecidableEq

/-- Outcome of running a Go function body: a normal return, a runtime
panic (nil dereference / explicit `panic`), or blocking forever on a
mutex. -/
inductive GoOutcome (A : Type) where
  | ret : A → GoOutcome A
  | panicked : GoOutcome A
  | blocked : GoOutcome A
deriving DecidableEq

/-- Map over the value of a normal return. -/
def GoOutcome.map {A B : Type} (f : A → B) : GoOutcome A → GoOutcome B
  | .ret a => .ret (f a)
  | .panicked => .panicked
  | .blocked => .blocked

/-! ## The compiler input/output schemas (`input.go`, `output.go`)

Go maps `map[K]V` are modelled as association lists `List (K × V)` and
`json.RawMessage` as the raw `String`; neither is inspected by the
binding layer. -/

/-- Struct `Optimizer` of input.go. -/
structure Optimizer where
  Enabled : Bool
  Runs : Int
deriving DecidableEq

/-- Struct `Settings` of input.go. -/
structure Settings where
  Remappings : List String
  Optimizer : Optimizer
  EVMVersion : String
  OutputSelection : List (String × List (String × List String))
deriving DecidableEq

/-- Struct `SourceIn` of input.go. -/
structure SourceIn where
  Keccak256 : String
  Content : String
deriving DecidableEq

/-- Struct `Input` of input.go. -/
structure Input where
  Language : String
  Sources : List (String × SourceIn)
  settings : Settings
deriving DecidableEq

/-- Struct `SourceLocation` of output.go. -/
structure SourceLocation where
  File : String
  Start : Int
  «End» : Int
deriving DecidableEq

/-- Struct `Error` of output.go. -/
structure SolcError where
  SourceLocation : SourceLocation
  «Type» : String
  Component : String
  Severity : String
  Message : String
  FormattedMessage : String
deriving DecidableEq

/-- Struct `SourceOut` of output.go. -/
structure SourceOut where
  ID : Int
  AST : String
  LegacyAST : String
deriving DecidableEq

/-- Struct `LinkReference` of output.go. -/
structure LinkReference where
  Start : Int
  «End» : Int
deriving DecidableEq

/-- Struct `Bytecode` of output.go. -/
structure Bytecode where
  Object : String
  Opcodes : String
  SourceMap : String
  LinkReferences : List (String × List (String × List LinkReference))
deriving DecidableEq

/-- Struct `EVM` of output.go. -/
structure EVM where
  Assembly : String
  LegacyAssembly : String
  bytecode : Bytecode
  DeployedBytecode : Bytecode
  MethodIdentifiers : List (String × String)
  GasEstimates : List (String × List (String × String))
deriving DecidableEq

/-- Struct `EWASM` of output.go. -/
structure EWASM where
  Wast : String
  Wasm : String
deriving DecidableEq

/-- Struct `Contract` of output.go. -/
structure Contract where
  ABI : List String
  Metadata : String
  UserDoc : String
  DevDoc : String
  IR : String
  evm : EVM
  ewasm : EWASM
deriving DecidableEq

/-- Struct `Output` of output.go. -/
structure Output where
  Errors : List SolcError
  Sources : List (String × SourceOut)
  Contracts : List (String × List (String × Contract))
deriving DecidableEq

/-! ## The external world -/

/-- The v8go execution context, abstracted as the observable behaviour of
its operations.  `V` is the type of `*v8go.Value` handles. -/
structure V8Ctx (V : Type) where
  /-- Method `ctx.RunScript(script, origin)`. -/
  runScript : String → String → Except GoError V
  /-- Method `ctx.Create(s)` on a string argument. -/
  createStr : String → Except GoError V
  /-- Method `ctx.Create(n)` on a numeric argument. -/
  createInt : Int → Except GoError V
  /-- Method `fn.Call(ctx, nil, args...)`; a `none` argument is a `nil` value. -/
  callFn : V → List (Option V) → Except GoError V
  /-- Method `val.String()`. -/
  valToString : V → String

/-- The `encoding/json` codec on the two schema types, abstracted. -/
structure JsonEnv where
  /-- Function `json.Marshal` on an `*Input`, producing the JSON byte string. -/
  marshalInput : Input → Except GoError String
  /-- Function `json.Unmarshal` of a byte string into a fresh `Output`. -/
  unmarshalOutput : String → Except GoError Output

/-- Everything external the package touches: v8go, the JSON codec, the
file system and `path.Join`. -/
structure GoEnv (V : Type) where
  /-- The error result of `v8go.NewIsolate()` (`none` = success). -/
  newIsolateErr : Option GoError
  ctx : V8Ctx V
  json : JsonEnv
  /-- Function `ioutil.ReadFile`. -/
  readFile : String → Except GoError String
  /-- Function `path.Join` of the Go standard library. -/
  pathJoin : String → String → String

/-- Operation `mux.Lock()` as seen by a single sequential caller: acquiring a free
mutex succeeds, acquiring a held one blocks forever. -/
def muxLock : Bool → Option Bool
  | false => some true
  | true => none

/-- Operation `mux.Unlock()`: releasing a held mutex succeeds, releasing a free one
is a fatal runtime error. -/
def muxUnlock : Bool → Option Bool
  | true => some false
  | false => none

/-- Whether the first character list is a prefix of the second. -/
def startsWithChars : List Char → List Char → Bool
  | [], _ => true
  | _ :: _, [] => false
  | c :: cs, d :: ds => c == d && startsWithChars cs ds

/-- Whether `sub` occurs contiguously inside the second list. -/
def hasSubChars (sub : List Char) : List Char → Bool
  | [] => startsWithChars sub []
  | c :: cs => startsWithChars sub (c :: cs) || hasSubChars sub cs

/-- Function `strings.Contains(s, sub)`: substring occurrence (true on an
empty `sub`, as in Go). -/
def goContains (s sub : String) : Bool :=
  hasSubChars sub.data s.data

/-! ## The current implementation (`solc.go`, struct `baseSolc`) -/

/-- The `baseSolc` struct.  The `isolate`/`ctx` handles live in `GoEnv`;
the struct keeps the mutex state and the three bound entry points. -/
structure baseSolc (V : Type) where
  mux : Bool
  version : Option V
  license : Option V
  compile : Option V

/-- The wrapper script binding the `solidity_version` export. -/
def wrapSolidityVersionJs : String :=
  "Module.cwrap(\x27solidity_version\x27, \x27string\x27, [])"

/-- The wrapper script binding the `version` export. -/
def wrapVersionJs : String :=
  "Module.cwrap(\x27version\x27, \x27string\x27, [])"

/-- The wrapper script binding the `solidity_license` export. -/
def wrapSolidityLicenseJs : String :=
  "Module.cwrap(\x27solidity_license\x27, \x27string\x27, [])"

/-- The wrapper script binding the `license` export. -/
def wrapLicenseJs : String :=
  "Module.cwrap(\x27license\x27, \x27string\x27, [])"

/-- The wrapper script binding the `solidity_compile` export. -/
def wrapCompileJs : String :=
  "Module.cwrap(\x27solidity_compile\x27, \x27string\x27, [\x27string\x27, \x27number\x27, \x27number\x27])"

/-- Method `(solc *baseSolc) init(soljsonjs string) error`, line by line.  The
returned struct carries the fields assigned so far; the second component
is the Go `error` result. -/
def baseSolc.init {V : Type} (ctx : V8Ctx V) (solc : baseSolc V)
    (soljsonjs : String) : baseSolc V × Option GoError :=
  match ctx.runScript soljsonjs "soljson.js" with
  | .error e => (solc, some e)
  | .ok _ =>
    match
      (if goContains soljsonjs "_solidity_version" then
        ctx.runScript wrapSolidityVersionJs "wrap_version.js"
      else
        ctx.runScript wrapVersionJs "wrap_version.js") with
    | .error e => (solc, some e)
    | .ok v =>
      let solc := { solc with version := some v }
      match
        (if goContains soljsonjs "_solidity_license" then
          some (ctx.runScript wrapSolidityLicenseJs "wrap_license.js")
        else if goContains soljsonjs "_license" then
          some (ctx.runScript wrapLicenseJs "wrap_license.js")
        else
          none) with
      | some (.error e) => (solc, some e)
      | some (.ok l) =>
        let solc := { solc with license := some l }
        match ctx.runScript wrapCompileJs "wrap_compile.js" with
        | .error e => (solc, some e)
        | .ok c => ({ solc with compile := some c }, none)
      | none =>
        match ctx.runScript wrapCompileJs "wrap_compile.js" with
        | .error e => (solc, some e)
        | .ok c => ({ solc with compile := some c }, none)

/-- Function `new(soljsonjs string) (*baseSolc, error)`. -/
def newBase {V : Type} (env : GoEnv V) (soljsonjs : String) :
    Option (baseSolc V) × Option GoError :=
  match env.newIsolateErr with
  | some e => (none, some e)
  | none =>
    let solc : baseSolc V :=
      { mux := false, version := none, license := none, compile := none }
    match baseSolc.init env.ctx solc soljsonjs with
    | (_, some e) => (none, some e)
    | (solc, none) => (some solc, none)

/-- Function `New(soljsonjs string) (Solc, error)`. -/
def New {V : Type} (env : GoEnv V) (soljsonjs : String) :
    Option (baseSolc V) × Option GoError :=
  newBase env soljsonjs

/-- Method `(solc *baseSolc) Close()`: `mux.Lock()`, `defer mux.Lock()`, close
the context and the isolate.  The deferred `Lock` runs when the body
finishes. -/
def baseSolc.Close {V : Type} (solc : baseSolc V) : GoOutcome (baseSolc V) :=
  match muxLock solc.mux with
  | none => .blocked
  | some m =>
    match muxLock m with
    | none => .blocked
    | some m => .ret { solc with mux := m }

/-- Method `(solc *baseSolc) License() string`: when a license entry point is
bound, `mux.Lock()`, `defer mux.Lock()`, call it discarding the error and
return `val.String()`; otherwise return `""`.  The deferred `Lock` runs
after the return value is evaluated. -/
def baseSolc.License {V : Type} (env : V8Ctx V) (solc : baseSolc V) :
    GoOutcome (String × baseSolc V) :=
  match solc.license with
  | some lic =>
    match muxLock solc.mux with
    | none => .blocked
    | some m =>
      match (env.callFn lic []).toOption with
      | none => .panicked
      | some val =>
        let s := env.valToString val
        match muxLock m with
        | none => .blocked
        | some m => .ret (s, { solc with mux := m })
  | none => .ret ("", solc)

/-- Method `(solc *baseSolc) Version() string`: same shape as `License` on the
version entry point. -/
def baseSolc.Version {V : Type} (env : V8Ctx V) (solc : baseSolc V) :
    GoOutcome (String × baseSolc V) :=
  match solc.version with
  | some ver =>
    match muxLock solc.mux with
    | none => .blocked
    | some m =>
      match (env.callFn ver []).toOption with
      | none => .panicked
      | some val =>
        let s := env.valToString val
        match muxLock m with
        | none => .blocked
        | some m => .ret (s, { solc with mux := m })
  | none => .ret ("", solc)

/-- Method `(solc *baseSolc) Compile(input *Input) (*Output, error)`: marshal the
input, `mux.Lock()` with `defer mux.Unlock()`, create the argument
values, call the compile entry point, unmarshal the result. -/
def baseSolc.Compile {V : Type} (env : V8Ctx V) (genv : JsonEnv)
    (solc : baseSolc V) (input : Input) :
    GoOutcome ((Option Output × Option GoError) × baseSolc V) :=
  match genv.marshalInput input with
  | .error e => .ret ((none, some e), solc)
  | .ok b =>
    match muxLock solc.mux with
    | none => .blocked
    | some m =>
      let finish :
          (Option Output × Option GoError) →
          GoOutcome ((Option Output × Option GoError) × baseSolc V) :=
        fun r =>
          match muxUnlock m with
          | none => .panicked
          | some m => .ret (r, { solc with mux := m })
      match env.createStr b with
      | .error e => finish (none, some e)
      | .ok val_in =>
        let val_one := (env.createInt 1).toOption
        match solc.compile with
        | none => .panicked
        | some cmp =>
          match env.callFn cmp [some val_in, val_one, val_one] with
          | .error e => finish (none, some e)
          | .ok val_out =>
            match genv.unmarshalOutput (env.valToString val_out) with
            | .error e => finish (none, some e)
            | .ok out => finish (some out, none)

/-- Function `NewFromFile(file string) (Solc, error)`. -/
def NewFromFile {V : Type} (env : GoEnv V) (file : String) :
    Option (baseSolc V) × Option GoError :=
  match env.readFile file with
  | .error e => (none, some e)
  | .ok soljson => New env soljson

/-- Constant `SOLC_BIN_DIR = "./solc-bin"`. -/
def SOLC_BIN_DIR : String := "./solc-bin"

/-- Factory `Solc6_2_0() Solc`: `NewFromFile` on the pinned 0.6.2 binary,
panicking on error. -/
def Solc6_2_0 {V : Type} (env : GoEnv V) : GoOutcome (Option (baseSolc V)) :=
  match NewFromFile env (env.pathJoin SOLC_BIN_DIR "soljson-v0.6.2+commit.bacdbe57.js") with
  | (_, some _) => .panicked
  | (solc, none) => .ret solc

/-- Factory `Solc5_9_0() Solc`: `NewFromFile` on the pinned 0.5.9 binary,
panicking on error. -/
def Solc5_9_0 {V : Type} (env : GoEnv V) : GoOutcome (Option (baseSolc V)) :=
  match NewFromFile env (env.pathJoin SOLC_BIN_DIR "soljson-v0.5.9+commit.e560f70d.js") with
  | (_, some _) => .panicked
  | (solc, none) => .ret solc

/-! ## The earlier lock-free implementation (`part_001`, struct `Solc`)

The same package at an earlier stage: no mutex, `Close` closes directly,
`Version` calls the entry point without a `nil` check.  Embedded under the
`Prev` namespace. -/

namespace Prev

/-- The earlier `Solc` struct: the three bound entry points, no mutex. -/
structure Solc (V : Type) where
  version : Option V
  license : Option V
  compile : Option V

/-- Method `(solc *Solc) init(soljsonjs string) error` of the earlier
implementation; textually the same resolution logic as `baseSolc.init`. -/
def Solc.init {V : Type} (ctx : V8Ctx V) (solc : Solc V)
    (soljsonjs : String) : Solc V × Option GoError :=
  match ctx.runScript soljsonjs "soljson.js" with
  | .error e => (solc, some e)
  | .ok _ =>
    match
      (if goContains soljsonjs "_solidity_version" then
        ctx.runScript wrapSolidityVersionJs "wrap_version.js"
      else
        ctx.runScript wrapVersionJs "wrap_version.js") with
    | .error e => (solc, some e)
    | .ok v =>
      let solc := { solc with version := some v }
      match
        (if goContains soljsonjs "_solidity_license" then
          some (ctx.runScript wrapSolidityLicenseJs "wrap_license.js")
        else if goContains soljsonjs "_license" then
          some (ctx.runScript wrapLicenseJs "wrap_license.js")
        else
          none) with
      | some (.error e) => (solc, some e)
      | some (.ok l) =>
        let solc := { solc with license := some l }
        match ctx.runScript wrapCompileJs "wrap_compile.js" with
        | .error e => (solc, some e)
        | .ok c => ({ solc with compile := some c }, none)
      | none =>
        match ctx.runScript wrapCompileJs "wrap_compile.js" with
        | .error e => (solc, some e)
        | .ok c => ({ solc with compile := some c }, none)

/-- Function `New(soljsonjs string) (*Solc, error)` of the earlier
implementation. -/
def New {V : Type} (env : GoEnv V) (soljsonjs : String) :
    Option (Solc V) × Option GoError :=
  match env.newIsolateErr with
  | some e => (none, some e)
  | none =>
    let solc : Solc V := { version := none, license := none, compile := none }
    match Solc.init env.ctx solc soljsonjs with
    | (_, some e) => (none, some e)
    | (solc, none) => (some solc, none)

/-- Method `(solc *Solc) Compile(input *Input) (*Output, error)` of the
earlier implementation: the same marshal / create / call / unmarshal
chain with no mutex. -/
def Solc.Compile {V : Type} (env : V8Ctx V) (genv : JsonEnv)
    (solc : Solc V) (input : Input) :
    GoOutcome (Option Output × Option GoError) :=
  match genv.marshalInput input with
  | .error e => .ret (none, some e)
  | .ok b =>
    match env.createStr b with
    | .error e => .ret (none, some e)
    | .ok val_in =>
      let val_one := (env.createInt 1).toOption
      match solc.compile with
      | none => .panicked
      | some cmp =>
        match env.callFn cmp [some val_in, val_one, val_one] with
        | .error e => .ret (none, some e)
        | .ok val_out =>
          match genv.unmarshalOutput (env.valToString val_out) with
          | .error e => .ret (none, some e)
          | .ok out => .ret (some out, none)

/-- View of the earlier struct as the current one: same entry points, a
freshly created (free) mutex. -/
def Solc.toBase {V : Type} (solc : Solc V) : baseSolc V :=
  { mux := false, version := solc.version, license := solc.license,
    compile := solc.compile }

end Prev

/-! ## Specification-side pipeline and concrete test worlds -/

/-- The marshal / invoke / unmarshal pipeline exactly as the specification
words describe `Compile`: JSON-marshal the input to a string, invoke the
bound compile entry point on that string (both numeric arguments are the
number 1), JSON-unmarshal the returned string.  Written from the spec, to
be compared against `baseSolc.Compile`. -/
def specCompilePipeline {V : Type} (env : V8Ctx V) (genv : JsonEnv)
    (cmp : V) (input : Input) : Option Output × Option GoError :=
  match genv.marshalInput input with
  | .error e => (none, some e)
  | .ok b =>
    match env.createStr b with
    | .error e => (none, some e)
    | .ok val_in =>
      match env.callFn cmp
          [some val_in, (env.createInt 1).toOption, (env.createInt 1).toOption] with
      | .error e => (none, some e)
      | .ok val_out =>
        match genv.unmarshalOutput (env.valToString val_out) with
        | .error e => (none, some e)
        | .ok out => (some out, none)

/-- An empty compiler output record. -/
def emptyOutput : Output :=
  { Errors := [], Sources := [], Contracts := [] }

/-- A concrete, fully succeeding v8 context over `Nat` handles; a script
run is summarized by the lengths of the script and its origin. -/
def natCtx : V8Ctx Nat :=
  { runScript := fun s o => .ok (s.length + o.length)
    createStr := fun s => .ok s.length
    createInt := fun n => .ok n.toNat
    callFn := fun f args => .ok (f + args.length)
    valToString := fun v => toString v }

/-- A concrete JSON codec: marshaling keeps only the language field,
unmarshaling yields the empty output. -/
def natJson : JsonEnv :=
  { marshalInput := fun i => .ok i.Language
    unmarshalOutput := fun _ => .ok emptyOutput }

/-- A concrete, fully succeeding external world. -/
def natEnv : GoEnv Nat :=
  { newIsolateErr := none, ctx := natCtx, json := natJson,
    readFile := fun _ => .ok "abc",
    pathJoin := fun a b => a ++ "/" ++ b }

/-- A JSON codec whose marshaling always fails. -/
def marshalErrJson : JsonEnv :=
  { marshalInput := fun _ => .error ⟨"marshal"⟩
    unmarshalOutput := fun _ => .error ⟨"unmarshal"⟩ }

/-- A JSON codec that marshals but never unmarshals. -/
def unmarshalErrJson : JsonEnv :=
  { marshalInput := fun i => .ok i.Language
    unmarshalOutput := fun _ => .error ⟨"unmarshal"⟩ }

/-- A context whose `Create` on strings fails. -/
def createErrCtx : V8Ctx Nat :=
  { natCtx with createStr := fun _ => .error ⟨"create"⟩ }

/-- A context whose function calls fail. -/
def callErrCtx : V8Ctx Nat :=
  { natCtx with callFn := fun _ _ => .error ⟨"call"⟩ }

/-- A context on which every script run fails. -/
def scriptErrCtx : V8Ctx Nat :=
  { natCtx with runScript := fun _ _ => .error ⟨"script"⟩ }

/-- An external world whose isolate creation fails. -/
def isoErrEnv : GoEnv Nat :=
  { natEnv with newIsolateErr := some ⟨"iso"⟩ }

/-- An external world whose script runs fail. -/
def scriptErrEnv : GoEnv Nat :=
  { natEnv with ctx := scriptErrCtx }

/-- An external world whose file reads fail. -/
def readErrEnv : GoEnv Nat :=
  { natEnv with readFile := fun _ => .error ⟨"read"⟩ }

/-- A constructed binding with a free mutex and all entry points bound. -/
def readyBase : baseSolc Nat :=
  { mux := false, version := some 1, license := some 2, compile := some 3 }

/-- The all-`nil` binding, as allocated at the start of `new`. -/
def emptyBase : baseSolc Nat :=
  { mux := false, version := none, license := none, compile := none }

/-- The binding obtained from the succeeding world on a script with no
probe substrings. -/
def abcSolc : baseSolc Nat :=
  ((New natEnv "abc").fst).getD emptyBase

/-- A soljson script text exposing `solidity_version`, `solidity_license`
and the always-present `solidity_compile`. -/
def js1 : String := "a_solidity_version_b_solidity_license_c"

/-- The binding obtained from the succeeding world on `js1`. -/
def js1Solc : baseSolc Nat :=
  ((New natEnv js1).fst).getD emptyBase

/-- A compilation input; only the language is set. -/
def inputA : Input :=
  { Language := "Solidity", Sources := [],
    settings :=
      { Remappings := [], Optimizer := { Enabled := true, Runs := 200 },
        EVMVersion := "byzantium", OutputSelection := [] } }

/-- A second input with the same language but different sources, so its
concrete JSON form under `natJson` agrees with `inputA`. -/
def inputB : Input :=
  { inputA with Sources := [("One.sol", { Keccak256 := "", Content := "x" })] }

/-! ## Characterization of initialization -/

/-- Characterization of a successful `baseSolc.init`: the script ran, the
version entry point was bound through the wrapper selected by the
`_solidity_version` probe, the license entry point through the
`_solidity_license` / `_license` probes (or left untouched), and the
compile entry point through the `solidity_compile` wrapper.  Shared
backbone for the entry-point-resolution claims. -/
theorem init_ok_spec {V : Type} (ctx : V8Ctx V) (s0 s1 : baseSolc V)
    (js : String) (h : baseSolc.init ctx s0 js = (s1, none)) :
    (∃ r, ctx.runScript js "soljson.js" = .ok r) ∧
    (∃ v,
      (if goContains js "_solidity_version" then
        ctx.runScript wrapSolidityVersionJs "wrap_version.js"
      else
        ctx.runScript wrapVersionJs "wrap_version.js") = .ok v ∧
      s1.version = some v) ∧
    (if goContains js "_solidity_license" then
      ∃ l, ctx.runScript wrapSolidityLicenseJs "wrap_license.js" = .ok l ∧
        s1.license = some l
    else if goContains js "_license" then
      ∃ l, ctx.runScript wrapLicenseJs "wrap_license.js" = .ok l ∧
        s1.license = some l
    else s1.license = s0.license) ∧
    (∃ c, ctx.runScript wrapCompileJs "wrap_compile.js" = .ok c ∧
      s1.compile = some c) ∧
    s1.mux = s0.mux := by
  unfold baseSolc.init at h
  cases hv : goContains js "_solidity_version" <;>
    cases hsl : goContains js "_solidity_license" <;>
      cases hl : goContains js "_license" <;>
        simp only [hv, hsl, hl, Bool.false_eq_true, if_true, if_false] at h ⊢ <;>
        repeat' split at h
  all_goals injection h with h1 h2
  all_goals cases h2
  all_goals subst h1
  all_goals simp_all

/-- Elimination of a successful `New`: the isolate was created and `init`
succeeded on the all-`nil` binding, yielding the returned struct. -/
theorem New_ok_elim {V : Type} (env : GoEnv V) (js : String)
    (solc : baseSolc V) (oe : Option GoError)
    (h : New env js = (some solc, oe)) :
    env.newIsolateErr = none ∧ oe = none ∧
      baseSolc.init env.ctx
        { mux := false, version := none, license := none, compile := none }
        js = (solc, none) := by
  unfold New newBase at h
  dsimp only at h
  repeat' split at h
  all_goals injection h with h1 h2
  all_goals cases h1
  all_goals cases h2
  all_goals simp_all

/-- C1: for every soljson script accepted by `New`, the version entry
point is bound through the `solidity_version` wrapper when the script
contains `_solidity_version` and through the `version` wrapper otherwise;
the license entry point through `solidity_license` when `_solidity_license`
occurs, else through `license` when `_license` occurs, else left unbound;
and the compile entry point always through `solidity_compile`. -/
theorem entry_point_resolution {V : Type} (env : GoEnv V) (js : String)
    (solc : baseSolc V) (oe : Option GoError)
    (h : New env js = (some solc, oe)) :
    (∃ v,
      (if goContains js "_solidity_version" then
        env.ctx.runScript wrapSolidityVersionJs "wrap_version.js"
      else
        env.ctx.runScript wrapVersionJs "wrap_version.js") = .ok v ∧
      solc.version = some v) ∧
    (if goContains js "_solidity_license" then
      ∃ l, env.ctx.runScript wrapSolidityLicenseJs "wrap_license.js" = .ok l ∧
        solc.license = some l
    else if goContains js "_license" then
      ∃ l, env.ctx.runScript wrapLicenseJs "wrap_license.js" = .ok l ∧
        solc.license = some l
    else solc.license = none) ∧
    (∃ c, env.ctx.runScript wrapCompileJs "wrap_compile.js" = .ok c ∧
      solc.compile = some c) := by
  obtain ⟨-, -, hinit⟩ := New_ok_elim env js solc oe h
  obtain ⟨-, hver, hlic, hcmp, -⟩ := init_ok_spec env.ctx _ solc js hinit
  exact ⟨hver, hlic, hcmp⟩

/-- Witness for C1 on the concrete script `js1`, which contains both
`_solidity_version` and `_solidity_license`: each entry point of the
resulting binding carries the value produced by the matching wrapper
script. -/
theorem entry_point_resolution_witness :
    (natEnv.ctx.runScript wrapSolidityVersionJs "wrap_version.js").toOption
        = js1Solc.version ∧
    (natEnv.ctx.runScript wrapSolidityLicenseJs "wrap_license.js").toOption
        = js1Solc.license ∧
    (natEnv.ctx.runScript wrapCompileJs "wrap_compile.js").toOption
        = js1Solc.compile := by
  have h : New natEnv js1 = (some js1Solc, none) := by rfl
  obtain ⟨⟨v, hv, hv2⟩, hlic, ⟨c, hc, hc2⟩⟩ :=
    entry_point_resolution natEnv js1 js1Solc none h
  simp only [show goContains js1 "_solidity_version" = true from by decide,
    if_true] at hv
  simp only [show goContains js1 "_solidity_license" = true from by decide,
    if_true] at hlic
  obtain ⟨l, hl, hl2⟩ := hlic
  rw [hv, hv2, hl, hl2, hc, hc2]
  exact ⟨rfl, rfl, rfl⟩

/-- C9: whenever `New` returns a binding without failing, the version and
compile entry points of that binding are both bound. -/
theorem new_binds_version_and_compile {V : Type} (env : GoEnv V)
    (js : String) (solc : baseSolc V) (oe : Option GoError)
    (h : New env js = (some solc, oe)) :
    solc.version.isSome = true ∧ solc.compile.isSome = true := by
  obtain ⟨-, -, hinit⟩ := New_ok_elim env js solc oe h
  obtain ⟨-, ⟨v, -, hv⟩, -, ⟨c, -, hc⟩, -⟩ :=
    init_ok_spec env.ctx _ solc js hinit
  rw [hv, hc]
  exact ⟨rfl, rfl⟩

/-- Witness for C9 on the probe-free script `"abc"`. -/
theorem new_binds_version_and_compile_witness :
    abcSolc.version.isSome = true ∧ abcSolc.compile.isSome = true := by
  have h : New natEnv "abc" = (some abcSolc, none) := by rfl
  exact new_binds_version_and_compile natEnv "abc" abcSolc none h

/-- C8: when the script contains neither `_solidity_license` nor
`_license`, a successful initialization leaves the license entry point
unbound and every later `License()` call returns the empty string without
touching the execution context (its result is the same for every
context). -/
theorem license_left_unbound {V : Type} (env : GoEnv V) (js : String)
    (solc : baseSolc V) (oe : Option GoError)
    (hsl : goContains js "_solidity_license" = false)
    (hl : goContains js "_license" = false)
    (h : New env js = (some solc, oe)) :
    solc.license = none ∧
      ∀ ctx2 : V8Ctx V, baseSolc.License ctx2 solc = .ret ("", solc) := by
  obtain ⟨-, -, hinit⟩ := New_ok_elim env js solc oe h
  obtain ⟨-, -, hlic, -, -⟩ := init_ok_spec env.ctx _ solc js hinit
  rw [hsl, hl] at hlic
  simp only [Bool.false_eq_true, if_false] at hlic
  refine ⟨hlic, fun ctx2 => ?_⟩
  simp [baseSolc.License, hlic]

/-- Witness for C8 on the probe-free script `"abc"`. -/
theorem license_left_unbound_witness :
    abcSolc.license = none ∧
      baseSolc.License natCtx abcSolc = .ret ("", abcSolc) := by
  have h : New natEnv "abc" = (some abcSolc, none) := by rfl
  have r :=
    license_left_unbound natEnv "abc" abcSolc none (by decide) (by decide) h
  exact ⟨r.1, r.2 natCtx⟩

/-- C2, refuted by the code: the claim says every mutex-acquiring public
operation releases the mutex before returning.  `Close`, `License` and
`Version` instead defer a second `mux.Lock()` (not `Unlock`), so on a
ready binding each of them blocks forever on the deferred re-lock and
never completes with the mutex free; only `Compile`, which defers
`Unlock`, returns with the mutex released. -/
theorem close_license_version_defer_relock :
    baseSolc.Close readyBase = .blocked ∧
    baseSolc.License natCtx readyBase = .blocked ∧
    baseSolc.Version natCtx readyBase = .blocked ∧
    baseSolc.Compile natCtx natJson readyBase inputA =
      .ret ((some emptyOutput, none), readyBase) :=
  ⟨rfl, rfl, rfl, rfl⟩

/-- C3: on a binding with a free mutex and a bound compile entry point,
`Compile` is exactly the marshal / invoke / unmarshal pipeline of the
spec: it returns normally, its value is the pipeline's (the marshaled
string is passed unchanged to the entry point and the returned string
unchanged to the unmarshaler), and the binding comes back in its starting
state. -/
theorem compile_is_marshal_invoke_unmarshal {V : Type} (env : V8Ctx V)
    (genv : JsonEnv) (ver lic : Option V) (c : V) (input : Input) :
    baseSolc.Compile env genv
        { mux := false, version := ver, license := lic, compile := some c }
        input =
      .ret (specCompilePipeline env genv c input,
        { mux := false, version := ver, license := lic, compile := some c }) := by
  cases hm : genv.marshalInput input with
  | error e => simp [baseSolc.Compile, specCompilePipeline, hm]
  | ok b =>
    cases hc : env.createStr b with
    | error e =>
      simp [baseSolc.Compile, specCompilePipeline, hm, hc, muxLock, muxUnlock]
    | ok vin =>
      cases hcall : env.callFn c
          [some vin, (env.createInt 1).toOption, (env.createInt 1).toOption] with
      | error e =>
        simp [baseSolc.Compile, specCompilePipeline, hm, hc, hcall,
          muxLock, muxUnlock]
      | ok vout =>
        cases hu : genv.unmarshalOutput (env.valToString vout) with
        | error e =>
          simp [baseSolc.Compile, specCompilePipeline, hm, hc, hcall, hu,
            muxLock, muxUnlock]
        | ok out =>
          simp [baseSolc.Compile, specCompilePipeline, hm, hc, hcall, hu,
            muxLock, muxUnlock]

/-- C5: the behaviour of `Compile` depends on its input only through the
input's JSON string form — two inputs with equal serializations produce
identical calls and identical results. -/
theorem compile_depends_only_on_marshaled_json {V : Type} (env : V8Ctx V)
    (genv : JsonEnv) (solc : baseSolc V) (i1 i2 : Input)
    (h : genv.marshalInput i1 = genv.marshalInput i2) :
    baseSolc.Compile env genv solc i1 = baseSolc.Compile env genv solc i2 := by
  unfold baseSolc.Compile
  rw [h]

/-- Witness for C5: `inputA` and `inputB` differ in their sources but
serialize identically under the concrete codec, and `Compile` treats them
identically. -/
theorem compile_depends_only_on_marshaled_json_witness :
    inputA ≠ inputB ∧
    natJson.marshalInput inputA = natJson.marshalInput inputB ∧
    baseSolc.Compile natCtx natJson readyBase inputA =
      baseSolc.Compile natCtx natJson readyBase inputB :=
  ⟨by decide, rfl,
    compile_depends_only_on_marshaled_json natCtx natJson readyBase
      inputA inputB rfl⟩

/-- C4: `Compile` and `New` pass underlying errors through unchanged: a
failing marshal, value creation, entry-point call or unmarshal makes
`Compile` return a `nil` output with exactly that error; a failing
isolate creation, script execution or entry-point binding makes `New`
return a `nil` binding with exactly that error; and neither ever pairs a
non-`nil` result with an error. -/
theorem errors_pass_through {V : Type} (env : V8Ctx V) (genv : JsonEnv)
    (world : GoEnv V) (solc : baseSolc V) (input : Input) (js : String)
    (e : GoError) :
    (genv.marshalInput input = .error e →
      baseSolc.Compile env genv solc input = .ret ((none, some e), solc)) ∧
    (∀ b, solc.mux = false → genv.marshalInput input = .ok b →
      env.createStr b = .error e →
      baseSolc.Compile env genv solc input =
        .ret ((none, some e), { solc with mux := false })) ∧
    (∀ b vin c, solc.mux = false → genv.marshalInput input = .ok b →
      env.createStr b = .ok vin → solc.compile = some c →
      env.callFn c
          [some vin, (env.createInt 1).toOption, (env.createInt 1).toOption]
        = .error e →
      baseSolc.Compile env genv solc input =
        .ret ((none, some e), { solc with mux := false })) ∧
    (∀ b vin c vout, solc.mux = false → genv.marshalInput input = .ok b →
      env.createStr b = .ok vin → solc.compile = some c →
      env.callFn c
          [some vin, (env.createInt 1).toOption, (env.createInt 1).toOption]
        = .ok vout →
      genv.unmarshalOutput (env.valToString vout) = .error e →
      baseSolc.Compile env genv solc input =
        .ret ((none, some e), { solc with mux := false })) ∧
    (∀ o oe s, baseSolc.Compile env genv solc input = .ret ((o, some oe), s) →
      o = none) ∧
    (world.newIsolateErr = some e → New world js = (none, some e)) ∧
    (world.newIsolateErr = none →
      world.ctx.runScript js "soljson.js" = .error e →
      New world js = (none, some e)) ∧
    (∀ s1, world.newIsolateErr = none →
      baseSolc.init world.ctx
          { mux := false, version := none, license := none, compile := none }
          js = (s1, some e) →
      New world js = (none, some e)) ∧
    (∀ o oe, New world js = (o, some oe) → o = none) := by
  refine ⟨?_, ?_, ?_, ?_, ?_, ?_, ?_, ?_, ?_⟩
  · intro hm
    simp [baseSolc.Compile, hm]
  · intro b hmux hm hc
    simp [baseSolc.Compile, hm, hmux, hc, muxLock, muxUnlock]
  · intro b vin c hmux hm hc hcmp hcall
    simp [baseSolc.Compile, hm, hmux, hc, hcmp, hcall, muxLock, muxUnlock]
  · intro b vin c vout hmux hm hc hcmp hcall hu
    simp [baseSolc.Compile, hm, hmux, hc, hcmp, hcall, hu, muxLock, muxUnlock]
  · intro o oe s h
    unfold baseSolc.Compile at h
    dsimp only at h
    repeat' split at h
    all_goals simp_all
  · intro hiso
    simp [New, newBase, hiso]
  · intro hiso hrun
    simp [New, newBase, hiso, baseSolc.init, hrun]
  · intro s1 hiso hinit
    simp [New, newBase, hiso, hinit]
  · intro o oe h
    unfold New newBase at h
    dsimp only at h
    repeat' split at h
    all_goals simp_all

/-- Witness for C4: each failing stage of the concrete worlds produces
exactly the `nil`-plus-error return. -/
theorem errors_pass_through_witness :
    baseSolc.Compile natCtx marshalErrJson readyBase inputA =
      .ret ((none, some ⟨"marshal"⟩), readyBase) ∧
    baseSolc.Compile createErrCtx natJson readyBase inputA =
      .ret ((none, some ⟨"create"⟩), readyBase) ∧
    baseSolc.Compile callErrCtx natJson readyBase inputA =
      .ret ((none, some ⟨"call"⟩), readyBase) ∧
    baseSolc.Compile natCtx unmarshalErrJson readyBase inputA =
      .ret ((none, some ⟨"unmarshal"⟩), readyBase) ∧
    New isoErrEnv "abc" = (none, some ⟨"iso"⟩) ∧
    New scriptErrEnv "abc" = (none, some ⟨"script"⟩) := by
  refine ⟨?_, ?_, ?_, ?_, ?_, ?_⟩
  · exact (errors_pass_through natCtx marshalErrJson natEnv readyBase inputA
      "abc" ⟨"marshal"⟩).1 rfl
  · exact (errors_pass_through createErrCtx natJson natEnv readyBase inputA
      "abc" ⟨"create"⟩).2.1 "Solidity" rfl rfl rfl
  · exact (errors_pass_through callErrCtx natJson natEnv readyBase inputA
      "abc" ⟨"call"⟩).2.2.1 "Solidity" 8 3 rfl rfl rfl rfl rfl
  · exact (errors_pass_through natCtx unmarshalErrJson natEnv readyBase inputA
      "abc" ⟨"unmarshal"⟩).2.2.2.1 "Solidity" 8 3 6 rfl rfl rfl rfl rfl rfl
  · exact (errors_pass_through natCtx natJson isoErrEnv readyBase inputA
      "abc" ⟨"iso"⟩).2.2.2.2.2.1 rfl
  · exact (errors_pass_through natCtx natJson scriptErrEnv readyBase inputA
      "abc" ⟨"script"⟩).2.2.2.2.2.2.1 rfl rfl

/-- C6: the pinned factories read exactly their version's binary from the
`./solc-bin` directory — `Solc6_2_0` the file
`soljson-v0.6.2+commit.bacdbe57.js` and `Solc5_9_0` the file
`soljson-v0.5.9+commit.e560f70d.js` — hand the contents to `New`, panic
when the read or the construction fails, and return the binding
otherwise. -/
theorem pinned_factories_spec {V : Type} (env : GoEnv V) (e : GoError) :
    (env.readFile
        (env.pathJoin SOLC_BIN_DIR "soljson-v0.6.2+commit.bacdbe57.js")
        = .error e → Solc6_2_0 env = .panicked) ∧
    (∀ s o, env.readFile
        (env.pathJoin SOLC_BIN_DIR "soljson-v0.6.2+commit.bacdbe57.js")
        = .ok s → New env s = (o, some e) → Solc6_2_0 env = .panicked) ∧
    (∀ s o, env.readFile
        (env.pathJoin SOLC_BIN_DIR "soljson-v0.6.2+commit.bacdbe57.js")
        = .ok s → New env s = (o, none) → Solc6_2_0 env = .ret o) ∧
    (env.readFile
        (env.pathJoin SOLC_BIN_DIR "soljson-v0.5.9+commit.e560f70d.js")
        = .error e → Solc5_9_0 env = .panicked) ∧
    (∀ s o, env.readFile
        (env.pathJoin SOLC_BIN_DIR "soljson-v0.5.9+commit.e560f70d.js")
        = .ok s → New env s = (o, some e) → Solc5_9_0 env = .panicked) ∧
    (∀ s o, env.readFile
        (env.pathJoin SOLC_BIN_DIR "soljson-v0.5.9+commit.e560f70d.js")
        = .ok s → New env s = (o, none) → Solc5_9_0 env = .ret o) := by
  refine ⟨?_, ?_, ?_, ?_, ?_, ?_⟩
  · intro h
    simp [Solc6_2_0, NewFromFile, h]
  · intro s o h hnew
    simp [Solc6_2_0, NewFromFile, h, hnew]
  · intro s o h hnew
    simp [Solc6_2_0, NewFromFile, h, hnew]
  · intro h
    simp [Solc5_9_0, NewFromFile, h]
  · intro s o h hnew
    simp [Solc5_9_0, NewFromFile, h, hnew]
  · intro s o h hnew
    simp [Solc5_9_0, NewFromFile, h, hnew]

/-- Witness for C6: with a failing file system both factories panic; with
the succeeding world both return the binding built from the read
script. -/
theorem pinned_factories_spec_witness :
    Solc6_2_0 readErrEnv = .panicked ∧
    Solc5_9_0 readErrEnv = .panicked ∧
    Solc6_2_0 scriptErrEnv = .panicked ∧
    Solc6_2_0 natEnv = .ret (some abcSolc) ∧
    Solc5_9_0 natEnv = .ret (some abcSolc) := by
  refine ⟨?_, ?_, ?_, ?_, ?_⟩
  · exact (pinned_factories_spec readErrEnv ⟨"read"⟩).1 rfl
  · exact (pinned_factories_spec readErrEnv ⟨"read"⟩).2.2.2.1 rfl
  · exact (pinned_factories_spec scriptErrEnv ⟨"script"⟩).2.1 "abc" none
      rfl rfl
  · exact (pinned_factories_spec natEnv ⟨"x"⟩).2.2.1 "abc" (some abcSolc)
      rfl (by rfl)
  · exact (pinned_factories_spec natEnv ⟨"x"⟩).2.2.2.2.2 "abc" (some abcSolc)
      rfl (by rfl)

/-- C7: `NewFromFile` on a readable path behaves exactly as `New` on the
file's contents; on a failed read it returns the read error and a `nil`
binding whatever the rest of the world looks like (no execution context
is consulted). -/
theorem newFromFile_refines_new {V : Type} (env : GoEnv V) (file : String) :
    (∀ s, env.readFile file = .ok s → NewFromFile env file = New env s) ∧
    (∀ e, env.readFile file = .error e →
      ∀ (iso : Option GoError) (ctx2 : V8Ctx V) (jenv : JsonEnv),
        NewFromFile
          { env with newIsolateErr := iso, ctx := ctx2, json := jenv } file
          = (none, some e)) := by
  constructor
  · intro s h
    simp [NewFromFile, h]
  · intro e h iso ctx2 jenv
    simp [NewFromFile, h]

/-- Witness for C7 at a concrete path under the succeeding and the
failing file system. -/
theorem newFromFile_refines_new_witness :
    NewFromFile natEnv "some-path" = New natEnv "abc" ∧
    NewFromFile readErrEnv "some-path" = (none, some ⟨"read"⟩) := by
  constructor
  · exact (newFromFile_refines_new natEnv "some-path").1 "abc" rfl
  · exact (newFromFile_refines_new readErrEnv "some-path").2 ⟨"read"⟩ rfl
      none natCtx natJson

/-- The two initialization routines resolve entry points identically:
running `baseSolc.init` from the mutex-guarded implementation on the view
of an earlier-struct state is the earlier `Solc.init` followed by the
view. -/
theorem prev_init_equiv {V : Type} (ctx : V8Ctx V) (o : Prev.Solc V)
    (js : String) :
    baseSolc.init ctx o.toBase js =
      ((Prev.Solc.init ctx o js).fst.toBase, (Prev.Solc.init ctx o js).snd) := by
  unfold baseSolc.init Prev.Solc.init
  repeat' split <;> first
  | rfl
  | simp_all [Prev.Solc.toBase]
  | skip

/-- The two constructors agree: `New` of the mutex-guarded implementation
is the earlier `New` followed by the view. -/
theorem prev_new_equiv {V : Type} (env : GoEnv V) (js : String) :
    New env js =
      ((Prev.New env js).fst.map Prev.Solc.toBase, (Prev.New env js).snd) := by
  unfold New newBase Prev.New
  try dsimp only
  cases hiso : env.newIsolateErr with
  | some e => simp
  | none =>
    have h := prev_init_equiv env.ctx
      { version := none, license := none, compile := none } js
    simp only [Prev.Solc.toBase] at h
    try dsimp only at h
    rw [h]
    cases hp : Prev.Solc.init env.ctx
        { version := none, license := none, compile := none } js with
    | mk s1 oe => cases oe <;> simp [Prev.Solc.toBase]

/-- The two `Compile` methods agree for a sequential caller: on the view
of an earlier-struct state the mutex-guarded `Compile` returns normally
with the earlier `Compile`'s result and the state unchanged. -/
theorem prev_compile_equiv {V : Type} (env : V8Ctx V) (genv : JsonEnv)
    (o : Prev.Solc V) (input : Input) :
    baseSolc.Compile env genv o.toBase input =
      GoOutcome.map (fun r => (r, o.toBase))
        (Prev.Solc.Compile env genv o input) := by
  unfold baseSolc.Compile Prev.Solc.Compile
  try dsimp only
  repeat' split <;> first
  | rfl
  | simp_all [Prev.Solc.toBase, GoOutcome.map, muxLock, muxUnlock]
  | skip

/-- C10: the mutex-guarded `baseSolc` and the earlier lock-free `Solc`
are functionally equivalent for a single sequential caller — identical
entry-point resolution in `init` and in `New`, and `Compile` invoking the
compile entry point with the same marshaled string and the number 1 for
both numeric arguments, producing the same output. -/
theorem implementations_equivalent {V : Type} :
    (∀ (ctx : V8Ctx V) (o : Prev.Solc V) (js : String),
      baseSolc.init ctx o.toBase js =
        ((Prev.Solc.init ctx o js).fst.toBase,
          (Prev.Solc.init ctx o js).snd)) ∧
    (∀ (env : GoEnv V) (js : String),
      New env js =
        ((Prev.New env js).fst.map Prev.Solc.toBase,
          (Prev.New env js).snd)) ∧
    (∀ (env : V8Ctx V) (genv : JsonEnv) (o : Prev.Solc V) (input : Input),
      baseSolc.Compile env genv o.toBase input =
        GoOutcome.map (fun r => (r, o.toBase))
          (Prev.Solc.Compile env genv o input)) :=
  ⟨fun ctx o js => prev_init_equiv ctx o js,
   fun env js => prev_new_equiv env js,
   fun env genv o input => prev_compile_equiv env genv o input⟩
